import Mathlib

/-!
Verification development for `src/hw1/watermark.py` (a batch photo
watermarking CLI).  The Python source is shallowly embedded below:

* pure functions (`place_text_position`, `parse_color`, `get_exif_date`,
  `gather_targets`) become Lean functions translated line by line;
* library calls that touch the outside world (PIL image decoding, font
  loading, `piexif.load`, `stat`, `mkdir`, `save`) are modelled as
  explicit `Except String` results carried in an environment record, so
  that the control flow of `process_image` / `draw_watermark` / `main`
  is mirrored exactly;
* Python machine behaviour that the code relies on (string `lower`,
  `bytes.decode('utf-8', errors='ignore')`, `datetime.strptime` /
  `datetime.fromisoformat` / `strftime`, `pathlib.Path.suffix`,
  `sorted`) is embedded as total executable functions.
-/

namespace Watermark

/-! ## Small Python string helpers -/

/-- Models Python `str.lower()` restricted to ASCII (the placement names and
color specs the program compares against are ASCII). -/
def strLower (s : String) : String := String.mk (s.toList.map Char.toLower)

/-! ## `place_text_position` (watermark.py lines 120-135)

The Python function lowercases the position name and returns the anchor by a
chain of `if` tests; Python integers are unbounded so we use `Int`, and
Python `//` is floor division (`Int.fdiv`). -/

def place_text_position (img_size : Int × Int) (text_size : Int × Int)
    (position : String) (margin : Int) : Int × Int :=
  let iw := img_size.1
  let ih := img_size.2
  let tw := text_size.1
  let th := text_size.2
  let pos := strLower position
  if pos = "top-left" ∨ pos = "tl" then (margin, margin)
  else if pos = "top-right" ∨ pos = "tr" then (iw - tw - margin, margin)
  else if pos = "bottom-left" ∨ pos = "bl" then (margin, ih - th - margin)
  else if pos = "bottom-right" ∨ pos = "br" then (iw - tw - margin, ih - th - margin)
  else if pos = "center" ∨ pos = "c" then ((iw - tw).fdiv 2, (ih - th).fdiv 2)
  else (margin, margin)

/-! ## `parse_color` (watermark.py lines 94-106)

`PIL.ImageColor.getrgb` is an external collaborator; we embed its
deterministic, documented behaviour on hex specifications (`#rgb`, `#rgba`,
`#rrggbb`, `#rrggbbaa`, case-insensitive) plus a small table of named
colors, failing (`none`) on anything else — exactly the shapes the program
and the specification exercise.  `parse_color` itself is translated from
the source: widen a 3-tuple with alpha 255, pass a 4-tuple through, and
fall back to opaque white on any failure. -/

inductive ParsedRGB where
  | rgb (r g b : Nat) : ParsedRGB
  | rgba (r g b a : Nat) : ParsedRGB
deriving DecidableEq, Repr

/-- Value of a single lowercase hex digit, `none` if not a hex digit. -/
def hexVal (c : Char) : Option Nat :=
  if '0' ≤ c ∧ c ≤ '9' then some (c.toNat - '0'.toNat)
  else if 'a' ≤ c ∧ c ≤ 'f' then some (c.toNat - 'a'.toNat + 10)
  else none

/-- Named-color table (subset of PIL's colormap; the program's default is
`#FFFFFF` and the spec only exercises hex forms and one invalid name). -/
def namedColors : List (String × ParsedRGB) :=
  [("white", .rgb 255 255 255), ("black", .rgb 0 0 0),
   ("red", .rgb 255 0 0), ("green", .rgb 0 128 0), ("blue", .rgb 0 0 255)]

/-- Model of `PIL.ImageColor.getrgb`: lowercase, try the color name table,
then the hex forms; unknown strings raise (here: `none`). -/
def getrgb (s : String) : Option ParsedRGB :=
  let low := strLower s
  match (namedColors.filter (fun p => p.1 = low)).head? with
  | some p => some p.2
  | none =>
    match low.toList with
    | '#' :: rest =>
      match rest.mapM hexVal with
      | some [r, g, b] => some (.rgb (17 * r) (17 * g) (17 * b))
      | some [r, g, b, a] => some (.rgba (17 * r) (17 * g) (17 * b) (17 * a))
      | some [r1, r2, g1, g2, b1, b2] =>
          some (.rgb (16 * r1 + r2) (16 * g1 + g2) (16 * b1 + b2))
      | some [r1, r2, g1, g2, b1, b2, a1, a2] =>
          some (.rgba (16 * r1 + r2) (16 * g1 + g2) (16 * b1 + b2) (16 * a1 + a2))
      | _ => none
    | _ => none

/-- `parse_color` (watermark.py lines 94-106): 3-channel results widened
with alpha 255, 4-channel passed through, any failure → opaque white. -/
def parse_color (s : String) : Nat × Nat × Nat × Nat :=
  match getrgb s with
  | some (.rgb r g b) => (r, g, b, 255)
  | some (.rgba r g b a) => (r, g, b, a)
  | none => (255, 255, 255, 255)

/-! ## Lenient UTF-8 decoding

Models `bytes.decode('utf-8', errors='ignore')`: a total function that
decodes well-formed UTF-8 sequences (rejecting overlong encodings and
surrogates, as CPython does) and silently drops invalid bytes. -/

/-- Is `b` a UTF-8 continuation byte (`0x80..0xBF`)? -/
def isCont (b : Nat) : Bool := 0x80 ≤ b ∧ b ≤ 0xBF

/-- Constraint on the first continuation byte of a 3-byte sequence
(excludes overlong encodings and UTF-16 surrogates). -/
def cont1ok3 (b c1 : Nat) : Bool :=
  if b = 0xE0 then 0xA0 ≤ c1 ∧ c1 ≤ 0xBF
  else if b = 0xED then 0x80 ≤ c1 ∧ c1 ≤ 0x9F
  else isCont c1

/-- Constraint on the first continuation byte of a 4-byte sequence
(excludes overlong encodings and code points above `U+10FFFF`). -/
def cont1ok4 (b c1 : Nat) : Bool :=
  if b = 0xF0 then 0x90 ≤ c1 ∧ c1 ≤ 0xBF
  else if b = 0xF4 then 0x80 ≤ c1 ∧ c1 ≤ 0x8F
  else isCont c1

/-- Worker for `utf8DecodeIgnore`, structurally recursive on a fuel bound
(one unit of fuel per decoded or skipped leading byte, so the byte-list
length always suffices). -/
def utf8DecodeIgnoreAux : Nat → List Nat → List Char
  | 0, _ => []
  | _, [] => []
  | fuel + 1, b :: rest =>
    if b < 0x80 then Char.ofNat b :: utf8DecodeIgnoreAux fuel rest
    else if 0xC2 ≤ b ∧ b ≤ 0xDF then
      match rest with
      | c1 :: rest1 =>
        if isCont c1 then
          Char.ofNat ((b - 0xC0) * 0x40 + (c1 - 0x80)) :: utf8DecodeIgnoreAux fuel rest1
        else utf8DecodeIgnoreAux fuel (c1 :: rest1)
      | [] => []
    else if 0xE0 ≤ b ∧ b ≤ 0xEF then
      match rest with
      | c1 :: c2 :: rest2 =>
        if cont1ok3 b c1 ∧ isCont c2 then
          Char.ofNat ((b - 0xE0) * 0x1000 + (c1 - 0x80) * 0x40 + (c2 - 0x80)) ::
            utf8DecodeIgnoreAux fuel rest2
        else utf8DecodeIgnoreAux fuel (c1 :: c2 :: rest2)
      | other => utf8DecodeIgnoreAux fuel other
    else if 0xF0 ≤ b ∧ b ≤ 0xF4 then
      match rest with
      | c1 :: c2 :: c3 :: rest3 =>
        if cont1ok4 b c1 ∧ isCont c2 ∧ isCont c3 then
          Char.ofNat ((b - 0xF0) * 0x40000 + (c1 - 0x80) * 0x1000 +
            (c2 - 0x80) * 0x40 + (c3 - 0x80)) :: utf8DecodeIgnoreAux fuel rest3
        else utf8DecodeIgnoreAux fuel (c1 :: c2 :: c3 :: rest3)
      | other => utf8DecodeIgnoreAux fuel other
    else utf8DecodeIgnoreAux fuel rest

/-- Decode a UTF-8 byte list, dropping invalid bytes (never failing);
output-equivalent to CPython's `errors='ignore'` handler, which skips the
invalid prefix and resumes (a skipped continuation byte can never start a
valid sequence, so resuming one byte at a time yields the same string). -/
def utf8DecodeIgnore (bs : List Nat) : List Char := utf8DecodeIgnoreAux bs.length bs

/-! ## Date parsing and formatting

`datetime.strptime(s, '%Y:%m:%d %H:%M:%S')`, `datetime.fromisoformat` and
`strftime('%Y-%m-%d')` are CPython standard-library collaborators, embedded
as total functions.  `strptime`'s `%Y` matches exactly four digits; `%m`,
`%d`, `%H`, `%M`, `%S` match one or two digits; `datetime` then validates
the calendar ranges (year ≥ 1, real day-of-month with leap years, seconds
≤ 59).  `fromisoformat` is modelled in its strict (pre-3.11) form
`YYYY-MM-DD[<sep>HH:MM[:SS[.fff[fff]]]]` without a timezone suffix.
`strftime('%Y-%m-%d')` is modelled with a zero-padded four-digit year. -/

/-- Value of a decimal digit character, `none` otherwise. -/
def digitVal (c : Char) : Option Nat :=
  if '0' ≤ c ∧ c ≤ '9' then some (c.toNat - '0'.toNat) else none

/-- Greedily take one or two leading digits (the `%m`/`%d`/`%H`/`%M`/`%S`
patterns followed by a non-digit separator). -/
def take2Digits : List Char → Option (Nat × List Char)
  | c1 :: c2 :: rest =>
    match digitVal c1, digitVal c2 with
    | some d1, some d2 => some (10 * d1 + d2, rest)
    | some d1, none => some (d1, c2 :: rest)
    | none, _ => none
  | [c1] => (digitVal c1).map (fun d => (d, ([] : List Char)))
  | [] => none

/-- Take exactly two leading digits (the zero-padded fields of
`fromisoformat`). -/
def take2DigitsExact : List Char → Option (Nat × List Char)
  | c1 :: c2 :: rest =>
    match digitVal c1, digitVal c2 with
    | some d1, some d2 => some (10 * d1 + d2, rest)
    | _, _ => none
  | _ => none

/-- Take exactly four leading digits (the `%Y` pattern). -/
def take4Digits (l : List Char) : Option (Nat × List Char) :=
  match take2DigitsExact l with
  | some (hi, r) =>
    match take2DigitsExact r with
    | some (lo, r2) => some (100 * hi + lo, r2)
    | none => none
  | none => none

/-- Expect a literal character. -/
def expectChar (c : Char) : List Char → Option (List Char)
  | x :: rest => if x = c then some rest else none
  | [] => none

/-- Gregorian leap year (as `calendar.isleap` / `datetime` use). -/
def isLeapYear (y : Nat) : Bool := y % 4 = 0 ∧ (y % 100 ≠ 0 ∨ y % 400 = 0)

/-- Days in a month. -/
def daysInMonth (y m : Nat) : Nat :=
  if m = 2 then (if isLeapYear y then 29 else 28)
  else if m = 4 ∨ m = 6 ∨ m = 9 ∨ m = 11 then 30
  else 31

/-- The calendar validation `datetime(y, m, d, ...)` performs. -/
def validDate (y m d : Nat) : Bool :=
  1 ≤ y ∧ 1 ≤ m ∧ m ≤ 12 ∧ 1 ≤ d ∧ d ≤ daysInMonth y m

/-- Models `datetime.strptime(s, '%Y:%m:%d %H:%M:%S')`, returning the
date fields on success. -/
def parseStrptimeExif (s : String) : Option (Nat × Nat × Nat) := do
  let (y, r1) ← take4Digits s.toList
  let r2 ← expectChar ':' r1
  let (mo, r3) ← take2Digits r2
  let r4 ← expectChar ':' r3
  let (d, r5) ← take2Digits r4
  let r6 ← expectChar ' ' r5
  let (h, r7) ← take2Digits r6
  let r8 ← expectChar ':' r7
  let (mi, r9) ← take2Digits r8
  let r10 ← expectChar ':' r9
  let (sec, r11) ← take2Digits r10
  if r11 = [] ∧ validDate y mo d ∧ h ≤ 23 ∧ mi ≤ 59 ∧ sec ≤ 59 then
    some (y, mo, d)
  else none

/-- Time-of-day part of `fromisoformat`: `HH:MM[:SS[.fff[fff]]]`. -/
def parseIsoTimePart (l : List Char) : Option (Nat × Nat × Nat) := do
  let (h, r1) ← take2DigitsExact l
  let r2 ← expectChar ':' r1
  let (mi, r3) ← take2DigitsExact r2
  match r3 with
  | [] => if h ≤ 23 ∧ mi ≤ 59 then some (h, mi, 0) else none
  | ':' :: r4 => do
    let (sec, r5) ← take2DigitsExact r4
    let fracOk :=
      match r5 with
      | [] => true
      | '.' :: fr => fr.all (fun c => (digitVal c).isSome) ∧
          (fr.length = 3 ∨ fr.length = 6)
      | _ => false
    if fracOk = true ∧ h ≤ 23 ∧ mi ≤ 59 ∧ sec ≤ 59 then some (h, mi, sec) else none
  | _ => none

/-- Models `datetime.fromisoformat` (strict pre-3.11 grammar, no timezone
suffix), returning the date fields on success. -/
def parseFromIso (s : String) : Option (Nat × Nat × Nat) := do
  let (y, r1) ← take4Digits s.toList
  let r2 ← expectChar '-' r1
  let (mo, r3) ← take2DigitsExact r2
  let r4 ← expectChar '-' r3
  let (d, r5) ← take2DigitsExact r4
  match r5 with
  | [] => if validDate y mo d then some (y, mo, d) else none
  | _sep :: rest =>
    match parseIsoTimePart rest with
    | some _ => if validDate y mo d then some (y, mo, d) else none
    | none => none

/-- The decimal digit character for `n % 10`. -/
def digitChar (n : Nat) : Char := Char.ofNat ('0'.toNat + n % 10)

/-- Models `dt.strftime('%Y-%m-%d')` on the parsed date fields: four-digit
zero-padded year, two-digit zero-padded month and day (the parsers above
only produce `y ≤ 9999`, `m ≤ 12`, `d ≤ 31`, on which this decimal layout
is exact). -/
def fmtYMD (y m d : Nat) : String :=
  String.mk [digitChar (y / 1000), digitChar (y / 100), digitChar (y / 10), digitChar y,
    '-', digitChar (m / 10), digitChar m, '-', digitChar (d / 10), digitChar d]

/-- A well-formed `YYYY-MM-DD` date stamp: exactly ten characters, digits
in the date positions and dashes between the groups. -/
def wellFormedYMD (s : String) : Bool :=
  match s.toList with
  | [y1, y2, y3, y4, s1, m1, m2, s2, d1, d2] =>
    y1.isDigit && y2.isDigit && y3.isDigit && y4.isDigit && s1 == '-' &&
    m1.isDigit && m2.isDigit && s2 == '-' && d1.isDigit && d2.isDigit
  | _ => false

/-! ## `get_exif_date` (watermark.py lines 20-69)

The function's primary branch (`_HAS_PIEXIF`) is embedded.  `piexif.load`
reads the file's EXIF container and may raise; the caught outcome is
modelled as `Option ExifDict` (`none` = any exception during metadata
access, swallowed by the outer `except` into `None`).  A tag value may be
`bytes` (decoded leniently) or already a string. -/

/-- An EXIF tag value: raw bytes or a decoded string. -/
inductive ExifVal where
  | bytes (bs : List Nat) : ExifVal
  | str (s : String) : ExifVal
deriving DecidableEq, Repr

/-- Python truthiness of a tag value (`b''` and `''` are falsy). -/
def ExifVal.truthy : ExifVal → Bool
  | .bytes bs => !bs.isEmpty
  | .str s => !s.isEmpty

/-- Python truthiness of `dto` after the tag lookups (`None` is falsy). -/
def truthyOpt : Option ExifVal → Bool
  | none => false
  | some v => v.truthy

/-- The two date tags the code looks up: `DateTimeOriginal` in the Exif
IFD (tag 36867) and `DateTime` in the 0th IFD (tag 306); `none` means the
key is absent from that IFD dictionary. -/
structure ExifDict where
  exifDTO : Option ExifVal
  zerothDT : Option ExifVal
deriving DecidableEq, Repr

/-- `dto.decode('utf-8', errors='ignore')` when the value is bytes. -/
def decodeVal : ExifVal → String
  | .bytes bs => String.mk (utf8DecodeIgnore bs)
  | .str s => s

/-- The parse chain applied to a found tag value: lenient decode, then
`strptime('%Y:%m:%d %H:%M:%S')`, then `fromisoformat`, each formatted as
`%Y-%m-%d`; `none` when both parses fail. -/
def parseTag (v : ExifVal) : Option String :=
  match parseStrptimeExif (decodeVal v) with
  | some (y, m, d) => some (fmtYMD y m d)
  | none =>
    match parseFromIso (decodeVal v) with
    | some (y, m, d) => some (fmtYMD y m d)
    | none => none

/-- Lines 26-31: `dto = exif_dict['Exif'].get(DateTimeOriginal)` when the
key is present, then `if not dto and DateTime in exif_dict['0th']: dto =
exif_dict['0th'].get(DateTime)`. -/
def pickTag (d : ExifDict) : Option ExifVal :=
  if ¬ truthyOpt d.exifDTO ∧ d.zerothDT.isSome then d.zerothDT else d.exifDTO

/-- `get_exif_date` (watermark.py lines 20-69, `_HAS_PIEXIF` branch):
take `DateTimeOriginal`; if that is falsy and `DateTime` is present in the
0th IFD, take `DateTime`; if the chosen value is truthy, run the parse
chain; otherwise `None`.  `loaded = none` models `piexif.load` raising
(caught by the outer `except Exception: return None`). -/
def get_exif_date (loaded : Option ExifDict) : Option String :=
  match loaded with
  | none => none
  | some d =>
    match pickTag d with
    | some v => if v.truthy then parseTag v else none
    | none => none

/-! ## `gather_targets` (watermark.py lines 187-196)

The filesystem view: the input path is a directory (with its direct
children, each a name plus an `is_file()` answer), a plain file, or
anything else.  `sorted(input_path.iterdir())` compares the children's
path strings, which within one directory is lexicographic filename order;
`Path.suffix` is the final `.`-suffix of the name (empty for dotfiles and
names without an interior dot). -/

def SUPPORTED_EXTS : List String :=
  [".jpg", ".jpeg", ".png", ".tiff", ".tif", ".webp", ".bmp"]

/-- A directory entry: its filename and whether `is_file()` holds
(subdirectories answer `false`). -/
structure Entry where
  name : String
  isFile : Bool
deriving DecidableEq, Repr

/-- The index of the last `'.'` in a character list (Python `str.rfind`),
`none` when there is no dot. -/
def rfindDot : List Char → Option Nat
  | [] => none
  | c :: rest =>
    match rfindDot rest with
    | some i => some (i + 1)
    | none => if c = '.' then some 0 else none

/-- Models `pathlib.Path.suffix` on a filename: the substring from the
last dot, unless that dot is the first or last character. -/
def pathSuffix (nm : String) : String :=
  let cs := nm.toList
  match rfindDot cs with
  | some i => if 0 < i ∧ i < cs.length - 1 then String.mk (cs.drop i) else ""
  | none => ""

/-- `f.suffix.lower() in SUPPORTED_EXTS`. -/
def eligibleName (nm : String) : Bool :=
  SUPPORTED_EXTS.contains (strLower (pathSuffix nm))

/-- The input path as the program probes it: `is_dir()`, `is_file()`, or
neither. -/
inductive InputPath where
  | dir (children : List Entry)
  | file (nm : String)
  | other
deriving Repr

/-- Python string `<=` on character lists: lexicographic by code point,
with a prefix ordered before its extensions. -/
def charListLe : List Char → List Char → Bool
  | [], _ => true
  | _ :: _, [] => false
  | a :: as, b :: bs =>
    if a.toNat < b.toNat then true
    else if b.toNat < a.toNat then false
    else charListLe as bs

/-- Python string `<=` (which `sorted` uses to compare the paths of one
directory's children, i.e. their filenames). -/
def strLe (a b : String) : Bool := charListLe a.toList b.toList

/-- The sort order of `sorted(input_path.iterdir())` on entries. -/
def entryLe (a b : Entry) : Prop := strLe a.name b.name = true

instance : DecidableRel entryLe :=
  fun a b => inferInstanceAs (Decidable (strLe a.name b.name = true))

/-- `gather_targets` (watermark.py lines 187-196), returning the yielded
filenames in order.  Python's `sorted` is a stable sort, modelled by the
(stable) insertion sort. -/
def gather_targets : InputPath → List String
  | .dir children =>
    ((List.insertionSort entryLe children).filter
      (fun e => e.isFile && eligibleName e.name)).map (fun e => e.name)
  | .file nm => if eligibleName nm then [nm] else []
  | .other => []

/-! ## Images, `draw_watermark` (lines 138-164) and `process_image`
(lines 167-184)

PIL pixel buffers are external; an `ImageHandle` is tracked by the data
the program's control flow reads: color mode and dimensions.  Each
fallible library call made inside `process_image`'s `try` is modelled by
its outcome, carried in a per-file environment record. -/

/-- A decoded raster image: color mode plus pixel dimensions. -/
structure PImage where
  mode : String
  width : Nat
  height : Nat
deriving DecidableEq, Repr

/-- `img.convert(m)` / mode-only view: same pixels reinterpreted in mode
`m`. -/
def convertMode (img : PImage) (m : String) : PImage := ⟨m, img.width, img.height⟩

/-- Models `PIL.Image.alpha_composite`: requires two RGBA images of equal
size, produces an RGBA image of that size. -/
def alpha_composite (a b : PImage) : Except String PImage :=
  if a.mode = "RGBA" ∧ b.mode = "RGBA" ∧ a.width = b.width ∧ a.height = b.height then
    .ok ⟨"RGBA", a.width, a.height⟩
  else .error "image has wrong mode"

/-- Modelled text measurement (`measure_text`, lines 109-117: PIL font
metrics are external): a deterministic tight bounding box from the text
length and font size. -/
def measure_text (text : String) (fontSize : Nat) : Nat × Nat :=
  (fontSize * text.length, fontSize)

/-- `draw_watermark` (watermark.py lines 138-164): convert a non-RGBA
source to RGBA (RGBA sources are copied), build a transparent RGBA
overlay of the same size, load the font (`ensure_font`, whose
filesystem-dependent outcome is the `fontRes` argument; it raises
`RuntimeError` when no candidate font path and no default font is
available), measure and place the text, draw outline and main text on the
overlay, alpha-composite, and convert back to the original mode when it
was not RGBA. -/
def draw_watermark (image : PImage) (text : String) (fontSize : Nat)
    (color : Nat × Nat × Nat × Nat) (position : String)
    (fontRes : Except String Unit) : Except String PImage :=
  let base := if image.mode ≠ "RGBA" then convertMode image "RGBA" else image
  let txtLayer : PImage := ⟨"RGBA", base.width, base.height⟩
  match fontRes with
  | .error e => .error e
  | .ok _ =>
    let ts := measure_text text fontSize
    let xy := place_text_position ((base.width : Int), (base.height : Int))
      ((ts.1 : Int), (ts.2 : Int)) position 10
    let _anchor := (xy, color)
    match alpha_composite base txtLayer with
    | .error e => .error e
    | .ok out => .ok (if image.mode ≠ "RGBA" then convertMode out image.mode else out)

/-- Per-file external-world outcomes: the result of each fallible library
call `process_image`'s body makes, in program order. -/
structure FileEnv where
  exif : Option ExifDict
  mtime : Except String (Nat × Nat × Nat)
  openImg : Except String PImage
  fontRes : Except String Unit
  mkdirRes : Except String Unit
  saveRes : Except String Unit

/-- Lines 170-175: `date = get_exif_date(path); if not date: date =
datetime.fromtimestamp(path.stat().st_mtime).strftime('%Y-%m-%d')`
(`path.stat()` may raise; its date fields are `env.mtime`). -/
def dateStep (env : FileEnv) : Except String String :=
  match get_exif_date env.exif with
  | some d =>
    if d.isEmpty then env.mtime.map (fun t => fmtYMD t.1 t.2.1 t.2.2) else .ok d
  | none => env.mtime.map (fun t => fmtYMD t.1 t.2.1 t.2.2)

/-- The per-file outcome tuple `(out_path | path, ok, message)`. -/
structure ProcessResult where
  path : String
  ok : Bool
  msg : String
deriving DecidableEq, Repr

/-- `process_image` (watermark.py lines 167-184): the `try` body runs the
date step, decode, render, `mkdir`, and save in order; any exception `e`
anywhere in the sequence is caught and converted to
`(path, False, 'Error: ' + e)`.  The second component records whether the
run reached and completed the `out_dir.mkdir` call (used for the
directory-creation frame property). -/
def process_image (path : String) (pathName : String) (env : FileEnv)
    (fontSize : Nat) (color : Nat × Nat × Nat × Nat) (position : String)
    (outDir : String) : ProcessResult × Bool :=
  match dateStep env with
  | .error e => (⟨path, false, "Error: " ++ e⟩, false)
  | .ok date =>
    match env.openImg with
    | .error e => (⟨path, false, "Error: " ++ e⟩, false)
    | .ok img =>
      match draw_watermark img date fontSize color position env.fontRes with
      | .error e => (⟨path, false, "Error: " ++ e⟩, false)
      | .ok _outImg =>
        match env.mkdirRes with
        | .error e => (⟨path, false, "Error: " ++ e⟩, false)
        | .ok _ =>
          let outPath := outDir ++ "/" ++ pathName
          match env.saveRes with
          | .error e => (⟨path, false, "Error: " ++ e⟩, true)
          | .ok _ => (⟨outPath, true, "Saved -> " ++ outPath⟩, true)

/-- The success counter of `main`'s loop, as the count of `ok` results. -/
def countSuccess (rs : List ProcessResult) : Nat := (rs.filter (·.ok)).length

/-- What `main` does after argument parsing, as observable outcome. -/
inductive MainOutcome where
  | notFound
  | noImages
  | ran (results : List ProcessResult) (success total : Nat)
deriving DecidableEq, Repr

/-- `main` (watermark.py lines 199-233): early return when the input path
does not exist; compute `out_dir = base_dir / out_subdir` and the color;
gather targets and early return (the "no supported images" message) when
none; otherwise process every target in order and report
`success/total`.  The second component lists the output directories
created during the run — creation is attempted only by `process_image`'s
`mkdir` step. -/
def mainRun (pathExists : Bool) (input : InputPath) (baseDir : String)
    (envOf : String → FileEnv) (fontSize : Nat) (colorStr : String)
    (position : String) (outSubdir : String) : MainOutcome × List String :=
  if ¬ pathExists then (.notFound, [])
  else
    let outDir := baseDir ++ "/" ++ outSubdir
    let color := parse_color colorStr
    let targets := gather_targets input
    if targets.isEmpty then (.noImages, [])
    else
      let pairs := targets.map (fun t =>
        process_image (baseDir ++ "/" ++ t) t (envOf t) fontSize color position outDir)
      let rs := pairs.map (·.1)
      (.ran rs (countSuccess rs) rs.length,
        if pairs.any (·.2) then [outDir] else [])

/-! ## Concrete demonstration worlds -/

/-- An environment in which every external call succeeds and the image
carries the EXIF date `"2023:05:17 10:00:00"`. -/
def envGood : FileEnv :=
  ⟨some ⟨some (.str "2023:05:17 10:00:00"), none⟩, .ok (2023, 5, 17),
    .ok ⟨"RGB", 100, 80⟩, .ok (), .ok (), .ok ()⟩

/-- `envGood` with an undecodable image (`Image.open` raises). -/
def envBad : FileEnv :=
  ⟨some ⟨some (.str "2023:05:17 10:00:00"), none⟩, .ok (2023, 5, 17),
    .error "cannot identify image file", .ok (), .ok (), .ok ()⟩

/-- `envGood` with no obtainable font: every candidate font path fails and
the default font cannot be loaded, so `ensure_font` raises `RuntimeError`
(watermark.py line 91). -/
def envNoFont : FileEnv :=
  ⟨some ⟨some (.str "2023:05:17 10:00:00"), none⟩, .ok (2023, 5, 17),
    .ok ⟨"RGB", 100, 80⟩, .error "无法加载字体，请安装字体或指定字体路径。", .ok (), .ok ()⟩

/-- A directory of three supported images. -/
def demoInput : InputPath := .dir [⟨"a.jpg", true⟩, ⟨"b.jpg", true⟩, ⟨"c.jpg", true⟩]

/-- File 2 of the batch is undecodable, files 1 and 3 are fine. -/
def demoEnvOf (nm : String) : FileEnv := if nm = "b.jpg" then envBad else envGood

/-- The per-file results of running the 3-file demo batch. -/
def demoResults : List ProcessResult :=
  [⟨"/photos/_watermark/a.jpg", true, "Saved -> /photos/_watermark/a.jpg"⟩,
   ⟨"/photos/b.jpg", false, "Error: cannot identify image file"⟩,
   ⟨"/photos/_watermark/c.jpg", true, "Saved -> /photos/_watermark/c.jpg"⟩]

/-- A two-image directory for the no-font run. -/
def fontFailInput : InputPath := .dir [⟨"a.jpg", true⟩, ⟨"b.jpg", true⟩]

/-! ## Theorems -/

/-- C2: for every image size `(iw, ih)`, text extent `(tw, th)` and margin
`m`, the placement anchors are `top-left → (m, m)`,
`top-right → (iw − tw − m, m)`, `bottom-left → (m, ih − th − m)`,
`bottom-right → (iw − tw − m, ih − th − m)`, `center` centers the box on
both axes, and any unknown placement name yields the top-left anchor; in
particular for image `(200,100)`, text `(50,20)`, margin `10`:
`bottom-right → (140, 70)`, `center → (75, 40)`, `top-left → (10, 10)`. -/
theorem C2_placement_anchors :
    (∀ iw ih tw th m : Int,
      place_text_position (iw, ih) (tw, th) "top-left" m = (m, m) ∧
      place_text_position (iw, ih) (tw, th) "top-right" m = (iw - tw - m, m) ∧
      place_text_position (iw, ih) (tw, th) "bottom-left" m = (m, ih - th - m) ∧
      place_text_position (iw, ih) (tw, th) "bottom-right" m = (iw - tw - m, ih - th - m) ∧
      place_text_position (iw, ih) (tw, th) "center" m = ((iw - tw).fdiv 2, (ih - th).fdiv 2)) ∧
    (∀ (iw ih tw th m : Int) (pos : String),
      strLower pos ∉ (["top-left", "tl", "top-right", "tr", "bottom-left", "bl",
        "bottom-right", "br", "center", "c"] : List String) →
      place_text_position (iw, ih) (tw, th) pos m = (m, m)) ∧
    place_text_position (200, 100) (50, 20) "bottom-right" 10 = (140, 70) ∧
    place_text_position (200, 100) (50, 20) "center" 10 = (75, 40) ∧
    place_text_position (200, 100) (50, 20) "top-left" 10 = (10, 10) := by
  refine ⟨fun iw ih tw th m => ⟨rfl, rfl, rfl, rfl, rfl⟩, ?_, rfl, rfl, rfl⟩
  intro iw ih tw th m pos h
  simp only [List.mem_cons, List.not_mem_nil, or_false, not_or] at h
  obtain ⟨h1, h2, h3, h4, h5, h6, h7, h8, h9, h10⟩ := h
  simp [place_text_position, h1, h2, h3, h4, h5, h6, h7, h8, h9, h10]

/-- Witness for C2: the unrecognized placement name `"weird"` yields the
top-left anchor. -/
theorem C2_placement_anchors_witness :
    place_text_position (5, 6) (7, 8) "weird" 9 = (9, 9) :=
  C2_placement_anchors.2.1 5 6 7 8 9 "weird" (by decide)

/-- C10: placement anchors are computed purely arithmetically and never
clamped to the image bounds: `bottom-right` is always
`(iw − tw − m, ih − th − m)`, so for image `(100,50)`, text `(200,20)`,
margin `10` the anchor is `(−110, 20)`, outside the image. -/
theorem C10_anchors_not_clamped :
    (∀ iw ih tw th m : Int,
      place_text_position (iw, ih) (tw, th) "bottom-right" m =
        (iw - tw - m, ih - th - m)) ∧
    place_text_position (100, 50) (200, 20) "bottom-right" 10 = (-110, 20) :=
  ⟨fun _ _ _ _ _ => rfl, rfl⟩

/-- C5: color parsing always returns a 4-channel RGBA tuple: a 3-channel
parse result is widened with alpha 255, a 4-channel result passes through,
and any parse failure yields opaque white; in particular
`"#FF0000" → (255,0,0,255)`, `"#FF000080" → (255,0,0,128)` and
`"not-a-color" → (255,255,255,255)`. -/
theorem C5_parse_color_total :
    (∀ s r g b, getrgb s = some (.rgb r g b) → parse_color s = (r, g, b, 255)) ∧
    (∀ s r g b a, getrgb s = some (.rgba r g b a) → parse_color s = (r, g, b, a)) ∧
    (∀ s, getrgb s = none → parse_color s = (255, 255, 255, 255)) ∧
    parse_color "#FF0000" = (255, 0, 0, 255) ∧
    parse_color "#FF000080" = (255, 0, 0, 128) ∧
    parse_color "not-a-color" = (255, 255, 255, 255) := by
  refine ⟨?_, ?_, ?_, rfl, rfl, rfl⟩
  · intro s r g b h; simp [parse_color, h]
  · intro s r g b a h; simp [parse_color, h]
  · intro s h; simp [parse_color, h]

/-- Witness for C5: the 3-channel hex spec `"#00FF00"` is widened with
alpha 255. -/
theorem C5_parse_color_total_witness : parse_color "#00FF00" = (0, 255, 0, 255) :=
  C5_parse_color_total.1 "#00FF00" 0 255 0 rfl

/-- Every character `digitChar` produces is a decimal digit. -/
theorem digitChar_isDigit (n : Nat) : (digitChar n).isDigit = true := by
  have h : n % 10 = 0 ∨ n % 10 = 1 ∨ n % 10 = 2 ∨ n % 10 = 3 ∨ n % 10 = 4 ∨
      n % 10 = 5 ∨ n % 10 = 6 ∨ n % 10 = 7 ∨ n % 10 = 8 ∨ n % 10 = 9 := by omega
  unfold digitChar
  rcases h with h | h | h | h | h | h | h | h | h | h <;> rw [h] <;> decide

/-- The `strftime('%Y-%m-%d')` model always yields a well-formed stamp. -/
theorem wellFormedYMD_fmtYMD (y m d : Nat) : wellFormedYMD (fmtYMD y m d) = true := by
  simp [wellFormedYMD, fmtYMD, String.toList, digitChar_isDigit]

/-- A found tag value that parses yields a `fmtYMD`-formatted stamp, so
every `some` result of `parseTag` is well-formed. -/
theorem parseTag_wellFormed (v : ExifVal) (s : String) (h : parseTag v = some s) :
    wellFormedYMD s = true := by
  unfold parseTag at h
  cases h1 : parseStrptimeExif (decodeVal v) with
  | some t =>
    rw [h1] at h
    obtain ⟨y, md⟩ := t
    obtain ⟨m, d⟩ := md
    simp at h
    rw [← h]
    exact wellFormedYMD_fmtYMD y m d
  | none =>
    rw [h1] at h
    cases h2 : parseFromIso (decodeVal v) with
    | some t =>
      rw [h2] at h
      obtain ⟨y, md⟩ := t
      obtain ⟨m, d⟩ := md
      simp at h
      rw [← h]
      exact wellFormedYMD_fmtYMD y m d
    | none => rw [h2] at h; simp at h

/-- Reduction of `get_exif_date` on a successful metadata load. -/
theorem get_exif_date_some_d (d : ExifDict) :
    get_exif_date (some d) =
      (match pickTag d with
       | some v => if v.truthy then parseTag v else none
       | none => none) := rfl

/-- Every `some` result of `get_exif_date` comes from the parse chain on
some tag value. -/
theorem get_exif_date_some (loaded : Option ExifDict) (s : String)
    (h : get_exif_date loaded = some s) : ∃ v, parseTag v = some s := by
  cases loaded with
  | none => simp [get_exif_date] at h
  | some d =>
    rw [get_exif_date_some_d] at h
    cases hp : pickTag d with
    | none => rw [hp] at h; simp at h
    | some v =>
      rw [hp] at h
      by_cases ht : v.truthy = true
      · simp only [ht, if_true] at h
        exact ⟨v, h⟩
      · simp only [Bool.not_eq_true] at ht
        simp [ht] at h

/-- C3 counterexample: the `DateTime` fallback is not gated on
`DateTimeOriginal` being absent — with `DateTimeOriginal` present but
empty (`''`, a falsy value) the code still consults `DateTime`: the
result changes with the `DateTime` tag even though `DateTimeOriginal` is
present. -/
theorem C3_counterexample :
    (ExifDict.mk (some (.str "")) (some (.str "2023:05:17 10:00:00"))).exifDTO.isSome
      = true ∧
    get_exif_date (some (ExifDict.mk (some (.str ""))
      (some (.str "2023:05:17 10:00:00")))) = some "2023-05-17" ∧
    get_exif_date (some (ExifDict.mk (some (.str "")) none)) = none :=
  ⟨rfl, rfl, rfl⟩

/-- C3 (amended): date resolution is an ordered fallback chain where the
first success wins: `DateTimeOriginal` is tried first; the generic
`DateTime` tag is consulted only when `DateTimeOriginal` is absent or has
a falsy (empty) value; a found tag value is parsed first as
`"YYYY:MM:DD HH:MM:SS"` and, if that fails, as ISO-8601; byte-encoded tag
values are decoded leniently (invalid bytes ignored, never fatal); a
valid `DateTimeOriginal` of `"2023:05:17 10:00:00"` resolves to
`"2023-05-17"`. -/
theorem C3_fallback_chain :
    (∀ (d : ExifDict) (v : ExifVal), d.exifDTO = some v → v.truthy = true →
      get_exif_date (some d) = parseTag v) ∧
    (∀ (d : ExifDict) (v : ExifVal), truthyOpt d.exifDTO = false → d.zerothDT = some v →
      get_exif_date (some d) = (if v.truthy then parseTag v else none)) ∧
    (∀ (v : ExifVal) (y m dd : Nat), parseStrptimeExif (decodeVal v) = some (y, m, dd) →
      parseTag v = some (fmtYMD y m dd)) ∧
    (∀ v : ExifVal, parseStrptimeExif (decodeVal v) = none →
      parseTag v = (parseFromIso (decodeVal v)).map (fun t => fmtYMD t.1 t.2.1 t.2.2)) ∧
    get_exif_date (some ⟨some (.bytes [0xFF, 0x32, 0x30, 0x32, 0x33, 0x3A, 0x30, 0x35,
      0x3A, 0x31, 0x37, 0x20, 0x31, 0x30, 0x3A, 0x30, 0x30, 0x3A, 0x30, 0x30]), none⟩) =
      some "2023-05-17" ∧
    get_exif_date (some ⟨some (.str "2023:05:17 10:00:00"), none⟩) = some "2023-05-17" := by
  refine ⟨?_, ?_, ?_, ?_, rfl, rfl⟩
  · intro d v hd hv
    rw [get_exif_date_some_d]
    unfold pickTag
    rw [hd]
    simp [truthyOpt, hv]
  · intro d v hf hz
    rw [get_exif_date_some_d]
    unfold pickTag
    simp [hf, hz]
  · intro v y m dd h
    unfold parseTag
    rw [h]
  · intro v h
    unfold parseTag
    rw [h]
    cases h2 : parseFromIso (decodeVal v) with
    | none => rfl
    | some t =>
      obtain ⟨y, md⟩ := t
      obtain ⟨m, dd⟩ := md
      rfl

/-- Witness for C3 (amended): a truthy `DateTimeOriginal` wins over a
present `DateTime`. -/
theorem C3_fallback_chain_witness :
    get_exif_date (some ⟨some (.str "2020:01:02 03:04:05"),
      some (.str "1999:01:01 00:00:00")⟩) = parseTag (.str "2020:01:02 03:04:05") :=
  C3_fallback_chain.1
    ⟨some (.str "2020:01:02 03:04:05"), some (.str "1999:01:01 00:00:00")⟩
    (.str "2020:01:02 03:04:05") rfl rfl

/-- C4: date resolution never raises past `get_exif_date`: a failed
metadata load yields `None`; whenever resolution yields absence the
caller falls back to the file's last-modified date formatted
`YYYY-MM-DD`; and every successfully resolved date stamp is a well-formed
`YYYY-MM-DD` string. -/
theorem C4_resolution_never_raises :
    get_exif_date none = none ∧
    (∀ env : FileEnv, get_exif_date env.exif = none →
      dateStep env = env.mtime.map (fun t => fmtYMD t.1 t.2.1 t.2.2)) ∧
    (∀ (env : FileEnv) (y m d : Nat), get_exif_date env.exif = none →
      env.mtime = .ok (y, m, d) → dateStep env = .ok (fmtYMD y m d)) ∧
    (∀ (loaded : Option ExifDict) (s : String), get_exif_date loaded = some s →
      wellFormedYMD s = true) := by
  refine ⟨rfl, ?_, ?_, ?_⟩
  · intro env h
    unfold dateStep
    rw [h]
  · intro env y m d h hm
    unfold dateStep
    rw [h, hm]
    rfl
  · intro loaded s h
    obtain ⟨v, hv⟩ := get_exif_date_some loaded s h
    exact parseTag_wellFormed v s hv

/-- Witness for C4: the concrete resolved stamp `"2023-05-17"` is
well-formed. -/
theorem C4_resolution_never_raises_witness : wellFormedYMD "2023-05-17" = true :=
  C4_resolution_never_raises.2.2.2
    (some ⟨some (.str "2023:05:17 10:00:00"), none⟩) "2023-05-17" rfl

/-- Python string `<=` is total. -/
theorem charListLe_total (as bs : List Char) :
    charListLe as bs = true ∨ charListLe bs as = true := by
  induction as generalizing bs with
  | nil => left; rfl
  | cons a as ih =>
    cases bs with
    | nil => right; rfl
    | cons b bs =>
      by_cases h1 : a.toNat < b.toNat
      · left; simp [charListLe, h1]
      · by_cases h2 : b.toNat < a.toNat
        · right; simp [charListLe, h2]
        · rcases ih bs with h | h
          · left; simp [charListLe, h1, h2, h]
          · right; simp [charListLe, h1, h2, h]

/-- Python string `<=` is transitive. -/
theorem charListLe_trans (as bs cs : List Char) (h1 : charListLe as bs = true)
    (h2 : charListLe bs cs = true) : charListLe as cs = true := by
  induction as generalizing bs cs with
  | nil => rfl
  | cons a as ih =>
    cases bs with
    | nil => simp [charListLe] at h1
    | cons b bs =>
      cases cs with
      | nil => simp [charListLe] at h2
      | cons c cs =>
        simp only [charListLe] at h1 h2 ⊢
        by_cases hab : a.toNat < b.toNat
        · by_cases hbc : b.toNat < c.toNat
          · have hac : a.toNat < c.toNat := by omega
            simp [hac]
          · by_cases hcb : c.toNat < b.toNat
            · simp [hbc, hcb] at h2
            · have hac : a.toNat < c.toNat := by omega
              simp [hac]
        · by_cases hba : b.toNat < a.toNat
          · simp [hab, hba] at h1
          · by_cases hbc : b.toNat < c.toNat
            · have hac : a.toNat < c.toNat := by omega
              simp [hac]
            · by_cases hcb : c.toNat < b.toNat
              · simp [hbc, hcb] at h2
              · have hac : ¬ a.toNat < c.toNat := by omega
                have hca : ¬ c.toNat < a.toNat := by omega
                simp [hab, hba] at h1
                simp [hbc, hcb] at h2
                simp only [hac, if_false, hca]
                exact ih bs cs h1 h2

/-- C6: target enumeration: for a directory input, exactly the direct
children that are files with a case-insensitive extension in
`{.jpg, .jpeg, .png, .tiff, .tif, .webp, .bmp}` are yielded, in
lexicographic filename order and excluding subdirectories; a single-file
input is yielded iff its extension is supported; any other path yields
zero targets. -/
theorem C6_enumeration :
    (∀ children : List Entry,
      List.Pairwise (fun a b : String => strLe a b = true)
        (gather_targets (.dir children)) ∧
      (∀ nm, nm ∈ gather_targets (.dir children) ↔
        ∃ e ∈ children, e.name = nm ∧ e.isFile = true ∧ eligibleName nm = true)) ∧
    (∀ nm, gather_targets (.file nm) = if eligibleName nm then [nm] else []) ∧
    gather_targets .other = [] ∧
    gather_targets (.dir [⟨"b.txt", true⟩, ⟨"c.PNG", true⟩, ⟨"a.jpg", true⟩,
      ⟨"d.jpg", false⟩, ⟨"e.jpeg", true⟩]) = ["a.jpg", "c.PNG", "e.jpeg"] := by
  refine ⟨?_, fun nm => rfl, rfl, rfl⟩
  intro children
  haveI : IsTotal Entry entryLe := ⟨fun a b => charListLe_total _ _⟩
  haveI : IsTrans Entry entryLe := ⟨fun a b c ha hb => charListLe_trans _ _ _ ha hb⟩
  constructor
  · have hs : List.Pairwise entryLe (List.insertionSort entryLe children) :=
      List.sorted_insertionSort entryLe children
    have hf := hs.filter (fun e => e.isFile && eligibleName e.name)
    unfold gather_targets
    rw [List.pairwise_map]
    exact hf
  · intro nm
    unfold gather_targets
    simp only [List.mem_map, List.mem_filter, List.mem_insertionSort, Bool.and_eq_true]
    constructor
    · rintro ⟨e, ⟨he, hfile, helig⟩, rfl⟩
      exact ⟨e, he, rfl, hfile, helig⟩
    · rintro ⟨e, he, rfl, hfile, helig⟩
      exact ⟨e, ⟨he, hfile, helig⟩, rfl⟩

/-- Reduction of `mainRun` when the path exists and targets were found. -/
theorem mainRun_ran (input : InputPath) (baseDir : String) (envOf : String → FileEnv)
    (fs : Nat) (colStr pos sub : String)
    (h : (gather_targets input).isEmpty = false) :
    mainRun true input baseDir envOf fs colStr pos sub =
      (let pairs := (gather_targets input).map (fun t =>
          process_image (baseDir ++ "/" ++ t) t (envOf t) fs (parse_color colStr) pos
            (baseDir ++ "/" ++ sub))
       let rs := pairs.map (·.1)
       (.ran rs (countSuccess rs) rs.length,
        if pairs.any (·.2) then [baseDir ++ "/" ++ sub] else [])) := by
  unfold mainRun
  simp [h]

/-- C7: per-file failure isolation: each file produces either a success
result for its output path or a failed result carrying the original path
and an `Error:` message; a `ran` batch yields exactly one result per
target with `total = |results|` and `success` the count of ok results;
concretely, a 3-file batch whose second file is undecodable yields
results ok/failed/ok and reports 2/3. -/
theorem C7_failure_isolation :
    (∀ (path nm : String) (env : FileEnv) (fs : Nat) (col : Nat × Nat × Nat × Nat)
        (pos outDir : String),
      (process_image path nm env fs col pos outDir).1 =
        ⟨outDir ++ "/" ++ nm, true, "Saved -> " ++ (outDir ++ "/" ++ nm)⟩ ∨
      ∃ e, (process_image path nm env fs col pos outDir).1 =
        ⟨path, false, "Error: " ++ e⟩) ∧
    (∀ (pe : Bool) (input : InputPath) (baseDir : String) (envOf : String → FileEnv)
        (fs : Nat) (colStr pos sub : String) (rs : List ProcessResult)
        (succ tot : Nat) (dirs : List String),
      mainRun pe input baseDir envOf fs colStr pos sub = (.ran rs succ tot, dirs) →
      rs.length = (gather_targets input).length ∧ tot = rs.length ∧
        succ = countSuccess rs) ∧
    mainRun true demoInput "/photos" demoEnvOf 10 "#FFFFFF" "bottom-right" "_watermark" =
      (.ran demoResults 2 3, ["/photos/_watermark"]) ∧
    demoResults.map (·.ok) = [true, false, true] := by
  refine ⟨?_, ?_, rfl, rfl⟩
  · intro path nm env fs col pos outDir
    rcases h1 : dateStep env with e | date
    · simp only [process_image, h1]
      exact Or.inr ⟨e, rfl⟩
    · rcases h2 : env.openImg with e | img
      · simp only [process_image, h1, h2]
        exact Or.inr ⟨e, rfl⟩
      · rcases h3 : draw_watermark img date fs col pos env.fontRes with e | oimg
        · simp only [process_image, h1, h2, h3]
          exact Or.inr ⟨e, rfl⟩
        · rcases h4 : env.mkdirRes with e | u
          · simp only [process_image, h1, h2, h3, h4]
            exact Or.inr ⟨e, rfl⟩
          · rcases h5 : env.saveRes with e | u
            · simp only [process_image, h1, h2, h3, h4, h5]
              exact Or.inr ⟨e, rfl⟩
            · simp only [process_image, h1, h2, h3, h4, h5]
              exact Or.inl trivial
  · intro pe input baseDir envOf fs colStr pos sub rs succ tot dirs h
    unfold mainRun at h
    split at h
    · simp at h
    · dsimp only at h
      split at h
      · simp at h
      · simp only [Prod.mk.injEq, MainOutcome.ran.injEq] at h
        obtain ⟨⟨hrs, hsucc, htot⟩, _⟩ := h
        subst hrs hsucc htot
        refine ⟨by simp, rfl, rfl⟩

/-- Witness for C7: the 3-file demo batch yields 3 results, total 3 and
2 successes. -/
theorem C7_failure_isolation_witness :
    demoResults.length = (gather_targets demoInput).length ∧
    3 = demoResults.length ∧ 2 = countSuccess demoResults :=
  C7_failure_isolation.2.1 true demoInput "/photos" demoEnvOf 10 "#FFFFFF"
    "bottom-right" "_watermark" demoResults 2 3 ["/photos/_watermark"] rfl

/-- C1 counterexample: font-acquisition failure does not abort the batch;
it is converted into per-file failed `ProcessResult`s: with no obtainable
font, a 2-file run completes, yields one failed result per file (each
carrying the `ensure_font` error), and reports 0/2. -/
theorem C1_counterexample :
    mainRun true fontFailInput "/photos" (fun _ => envNoFont) 10 "#FFFFFF"
      "bottom-right" "_watermark" =
    (.ran [⟨"/photos/a.jpg", false, "Error: 无法加载字体，请安装字体或指定字体路径。"⟩,
           ⟨"/photos/b.jpg", false, "Error: 无法加载字体，请安装字体或指定字体路径。"⟩]
      0 2, []) := rfl

/-- C1 (amended): when no font can be obtained (`ensure_font` raises), the
error is raised inside `draw_watermark` within each file's `try` block and
caught there like any other per-file error: every file yields a failed
`ProcessResult` carrying its original path, and the batch still runs to
completion with one result per target — no error class aborts the
batch. -/
theorem C1_font_failure_isolated :
    (∀ (path nm : String) (env : FileEnv) (fs : Nat) (col : Nat × Nat × Nat × Nat)
        (pos outDir : String) (e : String),
      env.fontRes = .error e →
      (process_image path nm env fs col pos outDir).1.ok = false ∧
      (process_image path nm env fs col pos outDir).1.path = path) ∧
    (∀ (input : InputPath) (baseDir : String) (envOf : String → FileEnv) (fs : Nat)
        (colStr pos sub : String),
      gather_targets input ≠ [] →
      ∃ rs dirs, mainRun true input baseDir envOf fs colStr pos sub =
          (.ran rs (countSuccess rs) rs.length, dirs) ∧
        rs.length = (gather_targets input).length) := by
  constructor
  · intro path nm env fs col pos outDir e hfont
    rcases h1 : dateStep env with e1 | date
    · simp only [process_image, h1]
      exact ⟨trivial, trivial⟩
    · rcases h2 : env.openImg with e2 | img
      · simp only [process_image, h1, h2]
        exact ⟨trivial, trivial⟩
      · have h3 : draw_watermark img date fs col pos env.fontRes = .error e := by
          unfold draw_watermark
          rw [hfont]
        simp only [process_image, h1, h2, h3]
        exact ⟨trivial, trivial⟩
  · intro input baseDir envOf fs colStr pos sub hne
    have hempty : (gather_targets input).isEmpty = false := by
      cases hg : gather_targets input with
      | nil => exact absurd hg hne
      | cons a l => rfl
    refine ⟨_, _, mainRun_ran input baseDir envOf fs colStr pos sub hempty, by simp⟩

/-- Witness for C1 (amended): with no obtainable font, one concrete file's
processing yields a failed result carrying its path. -/
theorem C1_font_failure_isolated_witness :
    (process_image "/photos/a.jpg" "a.jpg" envNoFont 10 (255, 255, 255, 255)
      "bottom-right" "/photos/_watermark").1.ok = false ∧
    (process_image "/photos/a.jpg" "a.jpg" envNoFont 10 (255, 255, 255, 255)
      "bottom-right" "/photos/_watermark").1.path = "/photos/a.jpg" :=
  C1_font_failure_isolated.1 "/photos/a.jpg" "a.jpg" envNoFont 10 (255, 255, 255, 255)
    "bottom-right" "/photos/_watermark" "无法加载字体，请安装字体或指定字体路径。" rfl

/-- C8: mode preservation: whenever `draw_watermark` succeeds, the result
has the source's color mode (and dimensions): a non-RGBA source is
converted to RGBA for compositing and the composited result is converted
back before returning; concretely a grayscale (`"L"`) source comes back
in `"L"`, not RGBA. -/
theorem C8_mode_preserved :
    (∀ (img : PImage) (text : String) (fs : Nat) (col : Nat × Nat × Nat × Nat)
        (pos : String) (fontRes : Except String Unit) (res : PImage),
      draw_watermark img text fs col pos fontRes = .ok res →
      res.mode = img.mode ∧ res.width = img.width ∧ res.height = img.height) ∧
    (∀ img : PImage,
      (if img.mode ≠ "RGBA" then convertMode img "RGBA" else img).mode = "RGBA") ∧
    draw_watermark ⟨"L", 100, 50⟩ "2023-05-17" 10 (255, 255, 255, 255) "bottom-right"
      (.ok ()) = .ok ⟨"L", 100, 50⟩ := by
  refine ⟨?_, ?_, rfl⟩
  · intro img text fs col pos fontRes res h
    cases fontRes with
    | error e => simp [draw_watermark] at h
    | ok u =>
      by_cases hm : img.mode = "RGBA"
      · simp [draw_watermark, alpha_composite, convertMode, hm] at h
        simp [← h, hm]
      · simp [draw_watermark, alpha_composite, convertMode, hm] at h
        simp [← h]
  · intro img
    by_cases hm : img.mode = "RGBA" <;> simp [convertMode, hm]

/-- Witness for C8: a palette-mode (`"P"`) source is returned in `"P"`
with its dimensions intact. -/
theorem C8_mode_preserved_witness :
    (PImage.mk "P" 7 9).mode = (PImage.mk "P" 7 9).mode ∧
    (PImage.mk "P" 7 9).width = (PImage.mk "P" 7 9).width ∧
    (PImage.mk "P" 7 9).height = (PImage.mk "P" 7 9).height :=
  C8_mode_preserved.1 ⟨"P", 7, 9⟩ "2023-05-17" 12 (0, 0, 0, 128) "center" (.ok ())
    ⟨"P", 7, 9⟩ rfl

/-- C9: when enumeration yields zero targets the run returns early with
the no-images outcome and creates no output directory; directories are
only ever created on the `ran` path (inside per-file processing);
concretely a directory of only `.txt` files yields `(noImages, [])`. -/
theorem C9_early_return_no_dir :
    (∀ (input : InputPath) (baseDir : String) (envOf : String → FileEnv) (fs : Nat)
        (colStr pos sub : String),
      gather_targets input = [] →
      mainRun true input baseDir envOf fs colStr pos sub = (.noImages, [])) ∧
    (∀ (pe : Bool) (input : InputPath) (baseDir : String) (envOf : String → FileEnv)
        (fs : Nat) (colStr pos sub : String) (out : MainOutcome) (dirs : List String),
      mainRun pe input baseDir envOf fs colStr pos sub = (out, dirs) → dirs ≠ [] →
      ∃ rs succ tot, out = .ran rs succ tot) ∧
    mainRun true (.dir [⟨"a.txt", true⟩, ⟨"b.txt", true⟩]) "/photos" (fun _ => envGood)
      10 "#FFFFFF" "bottom-right" "_watermark" = (.noImages, []) := by
  refine ⟨?_, ?_, rfl⟩
  · intro input baseDir envOf fs colStr pos sub h
    unfold mainRun
    simp [h]
  · intro pe input baseDir envOf fs colStr pos sub out dirs h hd
    unfold mainRun at h
    split at h
    · simp only [Prod.mk.injEq] at h
      exact absurd h.2.symm hd
    · dsimp only at h
      split at h
      · simp only [Prod.mk.injEq] at h
        exact absurd h.2.symm hd
      · simp only [Prod.mk.injEq] at h
        exact ⟨_, _, _, h.1.symm⟩

/-- Witness for C9: a single-`.txt` directory yields the no-images early
return and creates nothing. -/
theorem C9_early_return_no_dir_witness :
    mainRun true (.dir [⟨"notes.txt", true⟩]) "/p" (fun _ => envGood) 10 "#fff" "br"
      "_w" = (.noImages, []) :=
  C9_early_return_no_dir.1 (.dir [⟨"notes.txt", true⟩]) "/p" (fun _ => envGood) 10
    "#fff" "br" "_w" rfl

end Watermark
